import Mathlib

/-!
Shallow embedding of `src/render_queue.py` (BlenderOpenRenderQueue).

The program is a PyQt GUI around a sequential render queue.  The embedding
models, faithfully to the Python source:

* the inline frame-range parsing of the metadata probe (`render_files`,
  lines 400-421): scan `stdout.split('\n')` for lines containing
  `FRAME_RANGE:`, take `line.split("FRAME_RANGE:")[1].strip()`, split on
  `','`, parse two Python ints, set `total_frames = end - start + 1`;
  parse failures are swallowed and leave the previous value (initial 1);
* the inline progress parsing (lines 456-465): for a line containing
  `Fra:`, `int(line.split("Fra:")[1].split()[0])`, then
  `int((current_frame / total_frames) * 1000)` emitted to the per-file
  progress bar (float arithmetic is embedded as exact rational truncation);
* the queue state machine: `addFile`, `removeFile`, `updateRemoveButton`,
  `startQueue` (validation, button disabling, flag setting), the worker
  loop `render_files` (per-job probe, spawn, read loop, ETA/status update,
  exception handling) and `stopRendering` (signal, bounded wait, force
  kill, progress reset).

External effects (the filesystem, the spawned process, wall-clock time,
the concurrently mutated `self.rendering` flag) are modelled by explicit
oracles: a finite filesystem description, a per-job behaviour (probe
stdout and render output lines, or an exception), a per-job cancellation
observation point, and a per-job elapsed-time function.  Python strings
are modelled at the character-list level so that every definition reduces
in the kernel.
-/

namespace RenderQueue

/-! ### Python string primitives (character-list level) -/

/-- The ASCII whitespace characters recognised by Python's `str.strip()` and
`str.split()` (unicode whitespace beyond these is not modelled). -/
def pyIsSpace (c : Char) : Bool :=
  c = ' ' ∨ c = '\t' ∨ c = '\n' ∨ c = '\r' ∨ c = '\x0b' ∨ c = '\x0c'

/-- Python `str.strip()`. -/
def pyStrip (cs : List Char) : List Char :=
  ((cs.dropWhile pyIsSpace).reverse.dropWhile pyIsSpace).reverse

/-- Digit run with Python's single-underscore grouping (`int("1_0") = 10`):
an underscore must be followed by a digit, and the run may not start or end
with one.  Accumulates the value. -/
def digitsUnd (acc : Nat) : List Char → Option Nat
  | [] => some acc
  | '_' :: c :: rest =>
      if c.isDigit then digitsUnd (acc * 10 + (c.toNat - '0'.toNat)) rest else none
  | c :: rest =>
      if c.isDigit then digitsUnd (acc * 10 + (c.toNat - '0'.toNat)) rest else none

/-- Nonempty digit run (with underscore grouping), starting with a digit. -/
def parseDigits : List Char → Option Nat
  | [] => none
  | c :: rest => if c.isDigit then digitsUnd (c.toNat - '0'.toNat) rest else none

/-- Python `int(s)` on ASCII input: strip whitespace, optional sign, digits
(with underscore grouping); anything else raises, i.e. returns `none`. -/
def parsePyInt (cs : List Char) : Option Int :=
  match pyStrip cs with
  | '-' :: rest => (parseDigits rest).map (fun n => -(n : Int))
  | '+' :: rest => (parseDigits rest).map (fun n => (n : Int))
  | cs' => (parseDigits cs').map (fun n => (n : Int))

/-- Python `s.split(sep)` for a single-character separator. -/
def splitChar (sep : Char) : List Char → List (List Char)
  | [] => [[]]
  | c :: rest =>
    if c = sep then [] :: splitChar sep rest
    else
      match splitChar sep rest with
      | [] => [[c]]
      | t :: ts => (c :: t) :: ts

/-- If `pat` is a prefix of `cs`, the remaining suffix. -/
def dropPrefixQ : List Char → List Char → Option (List Char)
  | [], xs => some xs
  | _ :: _, [] => none
  | p :: ps, x :: xs => if x = p then dropPrefixQ ps xs else none

/-- The suffix of `cs` after the first occurrence of `pat`
(`none` when `pat` does not occur).  For nonempty `pat`,
`(afterFirst pat cs).isSome` is Python's `pat in cs`. -/
def afterFirst (pat : List Char) : List Char → Option (List Char)
  | [] => dropPrefixQ pat []
  | c :: rest =>
    match dropPrefixQ pat (c :: rest) with
    | some suf => some suf
    | none => afterFirst pat rest

/-- The prefix of `cs` up to (excluding) the first occurrence of `pat`
(all of `cs` when `pat` does not occur).  `upToFirst pat (afterFirst pat l)`
is Python's `l.split(pat)[1]`: the segment between the first and second
occurrence of `pat`. -/
def upToFirst (pat : List Char) : List Char → List Char
  | [] => []
  | c :: rest =>
    if (dropPrefixQ pat (c :: rest)).isSome then []
    else c :: upToFirst pat rest

/-- First whitespace-delimited token, Python `s.split()[0]`;
`none` models the `IndexError` on an empty token list. -/
def firstToken (cs : List Char) : Option (List Char) :=
  match cs.dropWhile pyIsSpace with
  | [] => none
  | cs' => some (cs'.takeWhile (fun c => !pyIsSpace c))

/-! ### Metadata probe parsing (render_queue.py lines 400-421)

```
total_frames = 1
for line in info_process.stdout.split('\n'):
    if "FRAME_RANGE:" in line:
        try:
            range_part = line.split("FRAME_RANGE:")[1].strip()
            start, end = map(int, range_part.split(','))
            total_frames = end - start + 1
        except Exception as e:
            ...   # logged, value left unchanged
```
-/

def FRmarker : List Char := "FRAME_RANGE:".data

/-- The `(start, end)` pair parsed from one probe-output line, or `none` when
the marker is absent or anything in the `try` block raises (wrong number of
comma-separated fields, unparsable integer). -/
def lineRange (line : List Char) : Option (Int × Int) :=
  match afterFirst FRmarker line with
  | none => none
  | some suf =>
    match splitChar ',' (pyStrip (upToFirst FRmarker suf)) with
    | [a, b] =>
      match parsePyInt a, parsePyInt b with
      | some s, some e => some (s, e)
      | _, _ => none
    | _ => none

/-- The `total_frames` value a single successfully parsed line assigns:
`end - start + 1` (the source has no monotonicity guard). -/
def lineTotal (line : List Char) : Option Int :=
  (lineRange line).map (fun p => p.2 - p.1 + 1)

/-- The probe's `total_frames` after folding over the output lines: starts at
1, each successfully parsed `FRAME_RANGE:` line overwrites it. -/
def parseTotalLines (lines : List (List Char)) : Int :=
  lines.foldl (fun acc l => (lineTotal l).getD acc) 1

/-- String-level wrappers. -/
def lineRangeS (line : String) : Option (Int × Int) := lineRange line.data

def lineTotalS (line : String) : Option Int := lineTotal line.data

def parseTotalLinesS (lines : List String) : Int :=
  parseTotalLines (lines.map String.data)

/-- The `total_frames` value computed from the whole captured probe stdout
(`stdout.split('\n')` then the fold above). -/
def parseTotalFrames (stdout : String) : Int :=
  parseTotalLines (splitChar '\n' stdout.data)

/-! ### Progress parsing (render_queue.py lines 456-465) -/

def FraMarker : List Char := "Fra:".data

/-- Python `int(output.split("Fra:")[1].split()[0])`: the current frame number of a
render-output line, `none` when `Fra:` is absent or parsing raises. -/
def fraFrame (line : List Char) : Option Int :=
  match afterFirst FraMarker line with
  | none => none
  | some suf =>
    match firstToken (upToFirst FraMarker suf) with
    | none => none
    | some tok => parsePyInt tok

def fraFrameS (line : String) : Option Int := fraFrame line.data

/-- Python `int(x)` applied to an exact quotient `a / b`: truncation toward
zero.  (The source computes `(current_frame / total_frames) * 1000` in
floating point; the embedding uses the exact rational value.) -/
def pyTruncDiv (a b : Int) : Int :=
  Int.sign a * Int.sign b * ((a.natAbs / b.natAbs : Nat) : Int)

/-- The progress value `int((current_frame / total_frames) * 1000)` emitted
for one output line, `none` when the line has no parsable frame marker or
the division raises (`total_frames = 0`, `ZeroDivisionError` caught by the
surrounding handler).  A negative `total_frames` does not raise in Python
and yields a negative progress value. -/
def emitProgress (totalFrames : Int) (line : List Char) : Option Int :=
  match fraFrame line with
  | none => none
  | some f => if totalFrames = 0 then none else some (pyTruncDiv (f * 1000) totalFrames)

def emitProgressS (totalFrames : Int) (line : String) : Option Int :=
  emitProgress totalFrames line.data

/-! ### Data model

The GUI state that the claims are about.  Label texts are modelled as a
structured `Status` carrying the payloads interpolated into the Python
f-strings (`completedJob` carries the exact `remaining_time` value; the
label renders `int(remaining_time)`). -/

/-- The `self.statusLabel.setText(...)` payloads, one constructor per call site. -/
inductive Status where
  /-- "Status: Idle" (initial). -/
  | idle
  /-- "Status: No files in queue!" -/
  | noFiles
  /-- "Invalid Blender executable! Cannot start rendering." -/
  | invalidExecutable
  /-- "Invalid output directory! Cannot start rendering." -/
  | invalidOutput
  /-- "Rendering: {file}" -/
  | renderingFile (file : String)
  /-- "Completed {done}/{total}. Estimated time left: {int(remaining)}s" -/
  | completedJob (done total : Nat) (remaining : ℚ)
  /-- "Error during rendering: {msg}" -/
  | errorDuring (msg : String)
  /-- "Rendering Stopped." -/
  | stopped
  /-- "Rendering Complete!" -/
  | complete
  deriving DecidableEq

/-- Observable external actions of the worker loop, tagged with the zero-based
index of the job that caused them (`etaReport d _ _` belongs to job `d - 1`). -/
inductive Event where
  /-- The metadata-probe `subprocess.run` for job `i`. -/
  | probe (i : Nat) (file : String)
  /-- The render `subprocess.Popen` for job `i`. -/
  | spawn (i : Nat) (file : String)
  /-- `self.progress_update.emit(v)` while rendering job `i`. -/
  | fileProgress (i : Nat) (v : Int)
  /-- The job-boundary status update at line 475: `done`/`total` finished,
  `remaining_time = remaining` seconds estimated. -/
  | etaReport (done total : Nat) (remaining : ℚ)
  deriving DecidableEq

/-- The job index an event belongs to. -/
def eventJob : Event → Nat
  | .probe i _ => i
  | .spawn i _ => i
  | .fileProgress i _ => i
  | .etaReport d _ _ => d - 1

/-- Whether an event is the job-boundary ETA/status report. -/
def isEta : Event → Bool
  | .etaReport _ _ _ => true
  | _ => false

/-- How the live render process reacts to `stopRendering`'s escalation:
whether it exits within the 2-second `wait(timeout=2)` window, and whether
the signal/wait/kill sequence raises an exception (caught and printed). -/
structure ProcBehavior where
  exitsWithinTimeout : Bool
  stopRaises : Bool
  deriving DecidableEq

/-- The process-control actions `stopRendering` performs, in order:
signal the process group, wait up to 2 seconds, force-kill the group. -/
inductive StopAction where
  | signalGroup
  | waitProcess
  | forceKill
  deriving DecidableEq

/-- The mutable application state (`RenderQueueApp` fields plus the widget
state the claims mention).  `listWidget` mirrors `queue` in the source and is
not duplicated; `trace` records the worker's external actions. -/
structure AppState where
  queue : List String
  rendering : Bool
  process : Option ProcBehavior
  threadRunning : Bool
  blender_executable : String
  blenderPathText : String
  outputPathText : String
  selection : List String
  addEnabled : Bool
  removeEnabled : Bool
  stopEnabled : Bool
  statusLabel : Status
  progressBar : Int
  fileProgressBar : Int
  trace : List Event
  deriving DecidableEq

/-- A finite filesystem oracle for `os.path.exists` / `os.path.isdir`. -/
structure FS where
  present : List String
  dirs : List String
  deriving DecidableEq

def FS.pathExists (fs : FS) (p : String) : Bool := fs.present.contains p

def FS.isDir (fs : FS) (p : String) : Bool := fs.dirs.contains p

/-- The state after `__init__`/`initUI`: empty selection, add button enabled,
remove and stop buttons disabled, both bars at 0, idle status. -/
def initState (queue : List String) (blenderText outputText : String) : AppState :=
  { queue := queue
    rendering := false
    process := none
    threadRunning := false
    blender_executable := blenderText
    blenderPathText := blenderText
    outputPathText := outputText
    selection := []
    addEnabled := true
    removeEnabled := false
    stopEnabled := false
    statusLabel := .idle
    progressBar := 0
    fileProgressBar := 0
    trace := [] }

/-! ### Queue-management handlers -/

/-- Python `str.strip()` on a `String`. -/
def pyStripS (s : String) : String := ⟨pyStrip s.data⟩

/-- Handler `updateRemoveButton` (lines 530-532): the remove button is enabled iff the
list-widget selection is nonempty — with no check of `self.rendering`. -/
def updateRemoveButton (s : AppState) : AppState :=
  { s with removeEnabled := decide (s.selection ≠ []) }

/-- A `QListWidget.itemSelectionChanged` event: the selection becomes `sel`
and the connected `updateRemoveButton` slot runs. -/
def selectionChanged (sel : List String) (s : AppState) : AppState :=
  updateRemoveButton { s with selection := sel }

/-- Handler `addFile` (lines 317-321): the dialog returns `some file` or `none`;
a chosen file is appended to `self.queue` and the list widget. -/
def addFile (file : Option String) (s : AppState) : AppState :=
  match file with
  | some f => { s with queue := s.queue ++ [f] }
  | none => s

/-- Python `list.remove(x)`: drop the first occurrence.  (The source never
calls it with an absent element: selected items come from the mirrored list.) -/
def removeFirst : List String → String → List String
  | [], _ => []
  | x :: xs, y => if x = y then xs else x :: removeFirst xs y

/-- Handler `removeFile` (lines 323-329): remove each selected item from the queue and
the list widget.  `takeItem` deselects the removed rows, and the resulting
`itemSelectionChanged` runs `updateRemoveButton`, so the selection ends empty
and the remove button disabled. -/
def removeFile (s : AppState) : AppState :=
  if s.selection = [] then s
  else
    { s with
      queue := s.selection.foldl removeFirst s.queue
      selection := []
      removeEnabled := false }

/-- Clicking the add button: a disabled `QPushButton` emits no `clicked`
signal, so the handler runs only when the button is enabled. -/
def clickAdd (file : Option String) (s : AppState) : AppState :=
  if s.addEnabled then addFile file s else s

/-- Clicking the remove button (guarded by its enabled state, as above). -/
def clickRemove (s : AppState) : AppState :=
  if s.removeEnabled then removeFile s else s

/-- Handler `startQueue` (lines 342-364): reject an empty queue; assign
`self.blender_executable = blenderPathInput.text().strip()` and reject an
empty or non-existing executable path; reject an empty or non-existing
output-directory path (`os.path.exists` only — `os.path.isdir` is never
consulted here); otherwise disable the file-management buttons, set
`self.rendering = True`, enable the stop button and start the worker thread. -/
def startQueue (fs : FS) (s : AppState) : AppState :=
  if s.queue.isEmpty then { s with statusLabel := .noFiles }
  else if pyStripS s.blenderPathText = "" ∨
      fs.pathExists (pyStripS s.blenderPathText) = false then
    { s with
      blender_executable := pyStripS s.blenderPathText
      statusLabel := .invalidExecutable }
  else if pyStripS s.outputPathText = "" ∨
      fs.pathExists (pyStripS s.outputPathText) = false then
    { s with
      blender_executable := pyStripS s.blenderPathText
      statusLabel := .invalidOutput }
  else
    { s with
      blender_executable := pyStripS s.blenderPathText
      addEnabled := false
      removeEnabled := false
      rendering := true
      stopEnabled := true
      threadRunning := true }

/-! ### The worker loop (`render_files`, lines 366-492)

The external world is an oracle:

* `behav i` — what happens inside job `i`'s `try` block: `.fail msg` for an
  exception raised anywhere in it (tempfile, probe, `os.makedirs`, spawn,
  stream read — the handler at lines 477-480 is the same for all of them),
  or `.run probeOut outLines` for a normal run whose probe captured
  `probeOut` and whose render process prints `outLines` and then exits;
* `cancel i` — whether (and at which checkpoint of job `i`) the
  concurrently-written `self.rendering` flag is observed `False`:
  `.atTop` at the line-370 check, `.inRead k` at the line-450 check after
  `k` output lines were consumed (a `k` past the end of the output models
  the post-loop check at line 467);
* `procs i` — the behaviour of job `i`'s spawned process under a later
  `stopRendering`;
* `times i` — `time.time() - start_time` measured at job `i`'s completion
  (line 470). -/

inductive JobBehavior where
  | fail (msg : String)
  | run (probeOut : String) (outLines : List String)
  deriving DecidableEq

/-- Whether `behav` produced a normal run for this index. -/
def JobBehavior.isRun : JobBehavior → Prop
  | .fail _ => False
  | .run _ _ => True

inductive CancelPoint where
  | atTop
  | inRead (k : Nat)
  deriving DecidableEq

/-- The read-loop part of a cancellation point. -/
def toReadCancel : Option CancelPoint → Option Nat
  | some (.inRead k) => some k
  | _ => none

/-- One pass of the monitor-loop body (lines 453-465) for job `i`: read one
line; if it carries a parsable `Fra:` marker (and the division does not
raise) emit the progress value — the `progress_update` signal is connected to
`fileProgressBar.setValue`. -/
def readStep (i : Nat) (totalFrames : Int) (line : String) (s : AppState) : AppState :=
  match emitProgressS totalFrames line with
  | some v => { s with fileProgressBar := v, trace := s.trace ++ [.fileProgress i v] }
  | none => s

/-- The monitor loop (lines 449-468 up to the post-loop flag check) for job
`i`: consume the process output lines in order; before each line the
`self.rendering` check may observe the cancel (`cp = some 0`), in which case
the loop breaks and line 467's check returns (`true` in the second
component); a line with a parsable `Fra:` marker emits its progress value to
the file progress bar.  When the process output is exhausted the process has
exited; `cp = some _` there models the flag turning false between the last
loop check and line 467. -/
def readLoop (i : Nat) (totalFrames : Int) :
    Option Nat → List String → AppState → AppState × Bool
  | some 0, _, s => (s, true)
  | none, [], s => (s, false)
  | some _, [], s => (s, true)
  | cp, line :: rest, s =>
    readLoop i totalFrames (cp.map (· - 1)) rest (readStep i totalFrames line s)

/-- The `for index, file in enumerate(self.queue)` loop of `render_files`.
Returns the state and whether control fell out of the loop (`true`: normal
exhaustion or the exception-handler `break`) as opposed to an early `return`
at line 372 or 468 (`false` — the post-loop block at 482-492 is skipped). -/
def renderJobs (behav : Nat → JobBehavior) (cancel : Nat → Option CancelPoint)
    (procs : Nat → ProcBehavior) (times : Nat → ℚ) (total_files : Nat) :
    Nat → List String → AppState → AppState × Bool
  | _, [], s => (s, true)
  | i, file :: rest, s =>
    if s.rendering = false ∨ cancel i = some .atTop then
      ({ s with statusLabel := .stopped }, false)
    else
      let s1 := { s with statusLabel := .renderingFile file, fileProgressBar := 0 }
      match behav i with
      | .fail msg =>
        ({ s1 with statusLabel := .errorDuring msg, rendering := false }, true)
      | .run probeOut outLines =>
        let total := parseTotalFrames probeOut
        let s2 := { s1 with
          process := some (procs i)
          trace := s1.trace ++ [.probe i file, .spawn i file] }
        let r := readLoop i total (toReadCancel (cancel i)) outLines s2
        if r.2 then (r.1, false)
        else
          let elapsed := times i
          let remaining := elapsed / ((i : ℚ) + 1) * ((total_files : ℚ) - ((i : ℚ) + 1))
          let s4 := { r.1 with
            progressBar := pyTruncDiv (((i : Int) + 1) * 1000) (total_files : Int)
            statusLabel := .completedJob (i + 1) total_files remaining
            trace := r.1.trace ++ [.etaReport (i + 1) total_files remaining] }
          renderJobs behav cancel procs times total_files (i + 1) rest s4

/-- The `remaining_time` status event published at the completion of job `m`
of `N`: `elapsed / (m + 1) * (N - (m + 1))` with `elapsed = times m`. -/
def etaOf (times : Nat → ℚ) (N : Nat) (m : Nat) : Event :=
  .etaReport (m + 1) N (times m / ((m : ℚ) + 1) * ((N : ℚ) - ((m : ℚ) + 1)))

/-- The state right before job `i`'s read loop: status "Rendering: file",
file progress reset, process handle stored, probe and spawn performed.
(Abbreviation for the loop body's intermediate state, used by the lemmas.) -/
def jobStartState (procs : Nat → ProcBehavior) (i : Nat) (file : String)
    (s : AppState) : AppState :=
  { s with
    statusLabel := .renderingFile file
    fileProgressBar := 0
    process := some (procs i)
    trace := s.trace ++ [.probe i file, .spawn i file] }

/-- The state after job `i` completed normally: read loop done, job-boundary
overall progress `int((i+1)/N*1000)` and completion status with the ETA. -/
def jobRunState (procs : Nat → ProcBehavior) (times : Nat → ℚ) (N i : Nat)
    (file : String) (po : String) (ol : List String) (s : AppState) : AppState :=
  { (readLoop i (parseTotalFrames po) none ol (jobStartState procs i file s)).1 with
    progressBar := pyTruncDiv (((i : Int) + 1) * 1000) (N : Int)
    statusLabel := .completedJob (i + 1) N
      (times i / ((i : ℚ) + 1) * ((N : ℚ) - ((i : ℚ) + 1)))
    trace := (readLoop i (parseTotalFrames po) none ol (jobStartState procs i file s)).1.trace
      ++ [etaOf times N i] }

/-- The state in which job `i`'s read loop observed the cancel flag after `k`
lines (the early-return state of lines 467-468). -/
def jobCancelState (procs : Nat → ProcBehavior) (i k : Nat) (file : String)
    (po : String) (ol : List String) (s : AppState) : AppState :=
  (readLoop i (parseTotalFrames po) (some k) ol (jobStartState procs i file s)).1

/-- The post-loop block of `render_files` (lines 482-492), reached only when
control fell out of the `for` loop (second component `true`): if the flag is
still set, publish completion and re-enable the file-management buttons; in
either case clear the flag, disable the stop button and drop the thread.  An
early `return` (second component `false`) skips the block. -/
def postLoop (r : AppState × Bool) : AppState :=
  if r.2 then
    let s' :=
      if r.1.rendering then
        { r.1 with
          statusLabel := .complete
          progressBar := 1000
          fileProgressBar := 1000
          addEnabled := true
          removeEnabled := decide (r.1.selection ≠ []) }
      else r.1
    { s' with rendering := false, stopEnabled := false, threadRunning := false }
  else r.1

/-- Worker `render_files`: the loop over the queue followed by the post-loop block. -/
def render_files (behav : Nat → JobBehavior) (cancel : Nat → Option CancelPoint)
    (procs : Nat → ProcBehavior) (times : Nat → ℚ) (s : AppState) : AppState :=
  postLoop (renderJobs behav cancel procs times s.queue.length 0 s.queue s)

/-- Lines 497-519 of `stopRendering`: if a process handle is held, signal its
group (`CTRL_BREAK_EVENT` / `SIGTERM` to the group), `wait(timeout=2)`, and if
the process is still alive after the 2-second window, force-kill the whole
group (`taskkill /F /T` / `SIGKILL`); any exception in that sequence is
caught and printed; the `finally` clause drops the handle in every case.
Returns the process-control actions performed, in order. -/
def killSequence (s : AppState) : AppState × List StopAction :=
  match s.process with
  | none => (s, [])
  | some pb =>
    if pb.stopRaises then ({ s with process := none }, [.signalGroup])
    else if pb.exitsWithinTimeout then
      ({ s with process := none }, [.signalGroup, .waitProcess])
    else
      ({ s with process := none }, [.signalGroup, .waitProcess, .forceKill])

/-- Handler `stopRendering` (lines 494-528): clear the flag first (preventing new
processes from starting), run the kill sequence, then disable the stop
button, re-enable add, recompute the remove button from the selection,
publish "Rendering Stopped." and reset both progress bars to 0. -/
def stopRendering (s : AppState) : AppState × List StopAction :=
  let step := killSequence { s with rendering := false }
  ({ step.1 with
      stopEnabled := false
      addEnabled := true
      removeEnabled := decide (step.1.selection ≠ [])
      statusLabel := .stopped
      progressBar := 0
      fileProgressBar := 0 }, step.2)

/-- Python `marker in line` for the frame-range marker. -/
def containsFR (l : List Char) : Bool := (afterFirst FRmarker l).isSome

def containsFRS (l : String) : Bool := containsFR l.data

/-! ### A concrete scenario shared by witnesses and counterexamples -/

/-- A two-job queue right after startup, with valid paths entered. -/
def exState : AppState := initState ["a.blend", "b.blend"] "/usr/bin/blender" "/renders"

/-- Filesystem on which `exState`'s paths validate. -/
def exFS : FS := ⟨["/usr/bin/blender", "/renders"], ["/renders"]⟩

/-- Every job probes a five-frame scene and prints two progress lines. -/
def exBehav : Nat → JobBehavior :=
  fun _ => .run "FRAME_RANGE:1,5" ["Fra:1 Mem:27.54M", "Fra:5 Mem:27.54M"]

/-- Every spawned process dies within the graceful window. -/
def exProcs : Nat → ProcBehavior := fun _ => ⟨true, false⟩

/-- Job 0 raises inside its `try` block; job 1 would run normally. -/
def exFailBehav : Nat → JobBehavior :=
  fun j => if j = 0 then .fail "boom" else .run "FRAME_RANGE:1,5" ["Fra:5 Mem:27.54M"]

/-- A filesystem on which the output path exists but is a regular file
(present, not listed as a directory). -/
def exFileOutFS : FS := ⟨["/usr/bin/blender", "/renders/notes.txt"], []⟩

/-- A one-job queue whose output field names that regular file. -/
def exFileOutState : AppState := initState ["a.blend"] "/usr/bin/blender" "/renders/notes.txt"

end RenderQueue

namespace RenderQueue

/-! ### Lemmas about the probe parsing fold -/

theorem lineTotal_of_not_contains (l : List Char) (h : containsFR l = false) :
    lineTotal l = none := by
  unfold lineTotal lineRange
  cases haf : afterFirst FRmarker l with
  | none => simp [haf]
  | some suf =>
    unfold containsFR at h
    rw [haf] at h
    simp at h

theorem foldlTotal_keep (ls : List (List Char)) (acc : Int)
    (h : ∀ l ∈ ls, lineTotal l = none) :
    ls.foldl (fun a l => (lineTotal l).getD a) acc = acc := by
  induction ls generalizing acc with
  | nil => rfl
  | cons l ls ih =>
    rw [List.foldl_cons, h l (by simp), Option.getD_none]
    exact ih acc (fun l' hl' => h l' (by simp [hl']))

theorem foldlTotal_ge_one (ls : List (List Char)) (acc : Int)
    (h : ∀ l ∈ ls, (lineRange l).all (fun p => decide (p.1 ≤ p.2)) = true)
    (hacc : 1 ≤ acc) :
    1 ≤ ls.foldl (fun a l => (lineTotal l).getD a) acc := by
  induction ls generalizing acc with
  | nil => simpa using hacc
  | cons l ls ih =>
    rw [List.foldl_cons]
    refine ih _ (fun l' hl' => h l' (by simp [hl'])) ?_
    cases hr : lineRange l with
    | none => simpa [lineTotal, hr] using hacc
    | some p =>
      have hp := h l (by simp)
      rw [hr] at hp
      simp [Option.all] at hp
      simp [lineTotal, hr]
      omega

/-- C1 (amended), general form: if every probe-output line either fails to
parse or parses to a monotonic range, the resulting total is at least 1. -/
theorem c1_total_frames_positive (ls : List String)
    (h : ∀ l ∈ ls, (lineRangeS l).all (fun p => decide (p.1 ≤ p.2)) = true) :
    1 ≤ parseTotalLinesS ls := by
  unfold parseTotalLinesS parseTotalLines
  refine foldlTotal_ge_one _ _ ?_ (by norm_num)
  intro l' hl'
  obtain ⟨l, hl, rfl⟩ := List.mem_map.mp hl'
  exact h l hl

/-- C1, witness for the amended theorem at a concrete probe output. -/
theorem c1_total_frames_positive_witness :
    (∀ l ∈ ["noise", "FRAME_RANGE:3,7"],
      (lineRangeS l).all (fun p => decide (p.1 ≤ p.2)) = true) ∧
    1 ≤ parseTotalLinesS ["noise", "FRAME_RANGE:3,7"] :=
  ⟨by decide, c1_total_frames_positive _ (by decide)⟩

/-- C1, counterexample: a parseable non-monotonic marker yields
`end - start + 1 = -4`, violating the claimed `total frames >= 1` invariant
(there is no single-frame fallback for non-monotonic ranges in the code). -/
theorem c1_nonmonotonic_counterexample :
    parseTotalFrames "FRAME_RANGE:10,5" = -4 ∧
    ¬ 1 ≤ parseTotalFrames "FRAME_RANGE:10,5" := by
  decide

/-- C7: probe output whose only marker line is `FRAME_RANGE:10,19` parses to
the range (10,19), hence 10 total frames; output with no marker line
anywhere yields the single-frame fallback total of 1. -/
theorem c7_probe_range (pre post : List String)
    (h1 : ∀ l ∈ pre, containsFRS l = false) (h2 : ∀ l ∈ post, containsFRS l = false) :
    lineRangeS "FRAME_RANGE:10,19" = some (10, 19) ∧
    parseTotalLinesS (pre ++ "FRAME_RANGE:10,19" :: post) = 10 ∧
    ∀ out : List String, (∀ l ∈ out, containsFRS l = false) → parseTotalLinesS out = 1 := by
  refine ⟨by decide, ?_, ?_⟩
  · unfold parseTotalLinesS parseTotalLines
    rw [List.map_append, List.foldl_append, List.map_cons, List.foldl_cons]
    rw [foldlTotal_keep (List.map String.data pre) 1 (fun l' hl' => by
      obtain ⟨l, hl, rfl⟩ := List.mem_map.mp hl'
      exact lineTotal_of_not_contains _ (h1 l hl))]
    rw [show lineTotal "FRAME_RANGE:10,19".data = some 10 from by decide, Option.getD_some]
    exact foldlTotal_keep _ 10 (fun l' hl' => by
      obtain ⟨l, hl, rfl⟩ := List.mem_map.mp hl'
      exact lineTotal_of_not_contains _ (h2 l hl))
  · intro out hout
    unfold parseTotalLinesS parseTotalLines
    exact foldlTotal_keep _ _ (fun l' hl' => by
      obtain ⟨l, hl, rfl⟩ := List.mem_map.mp hl'
      exact lineTotal_of_not_contains _ (hout l hl))

/-- C7, witness at concrete probe outputs. -/
theorem c7_probe_range_witness :
    (∀ l ∈ ["Blender 3.0"], containsFRS l = false) ∧
    (∀ l ∈ ["Blender quit"], containsFRS l = false) ∧
    (lineRangeS "FRAME_RANGE:10,19" = some (10, 19) ∧
      parseTotalLinesS (["Blender 3.0"] ++ "FRAME_RANGE:10,19" :: ["Blender quit"]) = 10 ∧
      ∀ out : List String, (∀ l ∈ out, containsFRS l = false) → parseTotalLinesS out = 1) :=
  ⟨by decide, by decide, c7_probe_range _ _ (by decide) (by decide)⟩

/-- C10: when several marker lines parse, the value from the last
successfully parsed one (in output order) wins; earlier ones are
overwritten.  `ls1` is arbitrary — it may contain any number of parseable
markers — and nothing after `l` parses. -/
theorem c10_last_marker_wins (ls1 ls2 : List String) (l : String) (v : Int)
    (hv : lineTotalS l = some v) (h2 : ∀ l' ∈ ls2, lineTotalS l' = none) :
    parseTotalLinesS (ls1 ++ l :: ls2) = v := by
  unfold parseTotalLinesS parseTotalLines
  rw [List.map_append, List.foldl_append, List.map_cons, List.foldl_cons]
  rw [show lineTotal l.data = some v from hv, Option.getD_some]
  exact foldlTotal_keep _ _ (fun l' hl' => by
    obtain ⟨l'', hl'', rfl⟩ := List.mem_map.mp hl'
    exact h2 l'' hl'')

/-- C10, witness: `FRAME_RANGE:1,2` followed by `FRAME_RANGE:10,19` gives 10. -/
theorem c10_last_marker_wins_witness :
    lineTotalS "FRAME_RANGE:10,19" = some 10 ∧
    (∀ l' ∈ ["Blender quit"], lineTotalS l' = none) ∧
    parseTotalLinesS (["FRAME_RANGE:1,2"] ++ "FRAME_RANGE:10,19" :: ["Blender quit"]) = 10 :=
  ⟨by decide, by decide, c10_last_marker_wins _ _ _ _ (by decide) (by decide)⟩

/-! ### Lemmas about the progress computation -/

theorem pyTruncDiv_eq_natDiv (a b : Int) (ha : 0 ≤ a) (hb : 0 < b) :
    pyTruncDiv a b = ((a.natAbs / b.natAbs : Nat) : Int) := by
  unfold pyTruncDiv
  rcases lt_or_eq_of_le ha with h | h
  · rw [Int.sign_eq_one_iff_pos.mpr h, Int.sign_eq_one_iff_pos.mpr hb]
    ring
  · rw [← h]
    simp

/-- C2 (amended): for total frames `T >= 1` and a line whose frame marker
parses to `F` with `0 <= F <= T`, the emitted progress is the exact quotient
`F / T * 1000` truncated — i.e. `floor`, not `round` — and that value already
lies in `[0, 1000]` with no clamping performed or needed. -/
theorem c2_progress_truncated_in_range (T F : Int) (l : String)
    (hT : 1 ≤ T) (hF0 : 0 ≤ F) (hFT : F ≤ T) (hl : fraFrameS l = some F) :
    emitProgressS T l = some (pyTruncDiv (F * 1000) T) ∧
    0 ≤ pyTruncDiv (F * 1000) T ∧
    pyTruncDiv (F * 1000) T ≤ 1000 ∧
    pyTruncDiv (F * 1000) T = ⌊(F : ℚ) / (T : ℚ) * 1000⌋ := by
  have hb : (0 : Int) < T := by omega
  have ha : (0 : Int) ≤ F * 1000 := by omega
  have hnd := pyTruncDiv_eq_natDiv (F * 1000) T ha hb
  have hT0 : ¬ T = 0 := by omega
  refine ⟨?_, ?_, ?_, ?_⟩
  · show emitProgress T l.data = _
    unfold emitProgress
    rw [show fraFrame l.data = some F from hl]
    simp [hT0]
  · rw [hnd]
    exact Int.natCast_nonneg _
  · rw [hnd]
    have h1 : (F * 1000).natAbs = F.natAbs * 1000 := by
      rw [Int.natAbs_mul]
      norm_num
    have h2 : F.natAbs * 1000 ≤ T.natAbs * 1000 :=
      Nat.mul_le_mul_right _ (by omega)
    have h3 : (F * 1000).natAbs / T.natAbs ≤ T.natAbs * 1000 / T.natAbs := by
      apply Nat.div_le_div_right
      rw [h1]
      exact h2
    rw [Nat.mul_div_cancel_left _ (by omega : 0 < T.natAbs)] at h3
    exact_mod_cast h3
  · rw [hnd]
    have hTa : ((T.natAbs : ℤ)) = T := Int.natAbs_of_nonneg (le_of_lt hb)
    have hAa : (((F * 1000).natAbs : ℤ)) = F * 1000 := Int.natAbs_of_nonneg ha
    have hTQ : ((T.natAbs : ℕ) : ℚ) = ((T : ℤ) : ℚ) := by
      conv_rhs => rw [← hTa]
      rw [Int.cast_natCast]
    have harg : (F : ℚ) / (T : ℚ) * 1000 = ((F * 1000 : ℤ) : ℚ) / ((T.natAbs : ℕ) : ℚ) := by
      rw [hTQ]
      push_cast
      ring
    rw [harg, Rat.floor_intCast_div_natCast]
    have hdiv : (F * 1000) / ((T.natAbs : ℕ) : ℤ) = (((F * 1000).natAbs / T.natAbs : ℕ) : ℤ) := by
      conv_lhs => rw [← hAa]
      exact (Int.ofNat_div _ _).symm
    rw [hdiv]

/-- C2, witness for the amended theorem: total 3 frames, current frame 2. -/
theorem c2_progress_truncated_witness :
    ((1 : Int) ≤ 3 ∧ (0 : Int) ≤ 2 ∧ (2 : Int) ≤ 3 ∧
      fraFrameS "Fra:2 Mem:27.54M" = some 2) ∧
    (emitProgressS 3 "Fra:2 Mem:27.54M" = some (pyTruncDiv (2 * 1000) 3) ∧
      0 ≤ pyTruncDiv (2 * 1000) 3 ∧
      pyTruncDiv (2 * 1000) 3 ≤ 1000 ∧
      pyTruncDiv (2 * 1000) 3 = ⌊(2 : ℚ) / (3 : ℚ) * 1000⌋) :=
  ⟨⟨by decide, by decide, by decide, by decide⟩,
    c2_progress_truncated_in_range 3 2 _ (by decide) (by decide) (by decide) (by decide)⟩

/-- C2, counterexample: at total frames 3 and current frame 2 the code emits
`int((2/3)*1000) = 666`, while the claimed `round(F/T*1000)` is 667 — the
code truncates instead of rounding to nearest. -/
theorem c2_rounding_counterexample :
    emitProgressS 3 "Fra:2 Mem:27.54M" = some 666 ∧
    round ((2 : ℚ) / 3 * 1000) = 667 ∧
    (666 : Int) ≠ 667 :=
  ⟨by decide, by norm_num [round_eq], by decide⟩

/-! ### Queue-mutation and validation theorems -/

/-- C4 (bug evidence): mutation is blocked while running only through button
enablement, and `updateRemoveButton` re-enables the remove button on any
selection change with no check of `self.rendering`.  Concretely: right after
`startQueue` both management buttons are disabled, but selecting an item
while the queue is running re-enables Remove, and clicking it removes the
selected job from the running queue.  (Add stays disabled, and both
operations are accepted while idle.) -/
theorem c4_remove_accepted_while_running :
    (startQueue exFS exState).rendering = true ∧
    (startQueue exFS exState).addEnabled = false ∧
    (startQueue exFS exState).removeEnabled = false ∧
    (selectionChanged ["b.blend"] (startQueue exFS exState)).removeEnabled = true ∧
    (clickRemove (selectionChanged ["b.blend"] (startQueue exFS exState))).rendering = true ∧
    (clickRemove (selectionChanged ["b.blend"] (startQueue exFS exState))).queue = ["a.blend"] ∧
    exState.queue = ["a.blend", "b.blend"] ∧
    (clickAdd (some "c.blend") exState).queue = ["a.blend", "b.blend", "c.blend"] ∧
    (clickRemove (selectionChanged ["b.blend"] exState)).queue = ["a.blend"] := by
  decide

/-- C5, counterexample: `startQueue` never consults `os.path.isdir` — on a
filesystem where the output path exists but is a regular file, validation
passes and the render thread starts, although the claim requires a
validation error. -/
theorem c5_nondirectory_output_counterexample :
    exFileOutFS.isDir "/renders/notes.txt" = false ∧
    (startQueue exFileOutFS exFileOutState).rendering = true ∧
    (startQueue exFileOutFS exFileOutState).threadRunning = true ∧
    (startQueue exFileOutFS exFileOutState).statusLabel ≠ .invalidOutput := by
  decide

/-- C5 (amended): `startQueue` validates only the existence of the stripped
executable and output paths (emptiness counts as failure); when either
existence check fails it sets a validation status and returns before any
work: the job list, the run flag, the thread, the trace and every button are
untouched. -/
theorem c5_validation_rejects (fs : FS) (s : AppState) (hq : ¬ s.queue = [])
    (h : pyStripS s.blenderPathText = "" ∨
         fs.pathExists (pyStripS s.blenderPathText) = false ∨
         pyStripS s.outputPathText = "" ∨
         fs.pathExists (pyStripS s.outputPathText) = false) :
    (startQueue fs s).queue = s.queue ∧
    (startQueue fs s).rendering = s.rendering ∧
    (startQueue fs s).threadRunning = s.threadRunning ∧
    (startQueue fs s).trace = s.trace ∧
    (startQueue fs s).addEnabled = s.addEnabled ∧
    (startQueue fs s).removeEnabled = s.removeEnabled ∧
    (startQueue fs s).stopEnabled = s.stopEnabled ∧
    ((startQueue fs s).statusLabel = .invalidExecutable ∨
      (startQueue fs s).statusLabel = .invalidOutput) := by
  unfold startQueue
  rw [if_neg (by simpa [List.isEmpty_iff] using hq)]
  by_cases h1 : pyStripS s.blenderPathText = "" ∨
      fs.pathExists (pyStripS s.blenderPathText) = false
  · rw [if_pos h1]
    exact ⟨rfl, rfl, rfl, rfl, rfl, rfl, rfl, Or.inl rfl⟩
  · rw [if_neg h1]
    have h2 : pyStripS s.outputPathText = "" ∨
        fs.pathExists (pyStripS s.outputPathText) = false := by
      tauto
    rw [if_pos h2]
    exact ⟨rfl, rfl, rfl, rfl, rfl, rfl, rfl, Or.inr rfl⟩

/-- C5, witness for the amended theorem: a filesystem with no paths at all
rejects the start and leaves the state untouched. -/
theorem c5_validation_rejects_witness :
    (¬ (initState ["a.blend"] "/bl" "/out").queue = []) ∧
    (pyStripS (initState ["a.blend"] "/bl" "/out").blenderPathText = "" ∨
      FS.pathExists ⟨[], []⟩ (pyStripS (initState ["a.blend"] "/bl" "/out").blenderPathText) = false ∨
      pyStripS (initState ["a.blend"] "/bl" "/out").outputPathText = "" ∨
      FS.pathExists ⟨[], []⟩ (pyStripS (initState ["a.blend"] "/bl" "/out").outputPathText) = false) ∧
    ((startQueue ⟨[], []⟩ (initState ["a.blend"] "/bl" "/out")).queue
        = (initState ["a.blend"] "/bl" "/out").queue ∧
      (startQueue ⟨[], []⟩ (initState ["a.blend"] "/bl" "/out")).rendering
        = (initState ["a.blend"] "/bl" "/out").rendering ∧
      (startQueue ⟨[], []⟩ (initState ["a.blend"] "/bl" "/out")).threadRunning
        = (initState ["a.blend"] "/bl" "/out").threadRunning ∧
      (startQueue ⟨[], []⟩ (initState ["a.blend"] "/bl" "/out")).trace
        = (initState ["a.blend"] "/bl" "/out").trace ∧
      (startQueue ⟨[], []⟩ (initState ["a.blend"] "/bl" "/out")).addEnabled
        = (initState ["a.blend"] "/bl" "/out").addEnabled ∧
      (startQueue ⟨[], []⟩ (initState ["a.blend"] "/bl" "/out")).removeEnabled
        = (initState ["a.blend"] "/bl" "/out").removeEnabled ∧
      (startQueue ⟨[], []⟩ (initState ["a.blend"] "/bl" "/out")).stopEnabled
        = (initState ["a.blend"] "/bl" "/out").stopEnabled ∧
      ((startQueue ⟨[], []⟩ (initState ["a.blend"] "/bl" "/out")).statusLabel = .invalidExecutable ∨
        (startQueue ⟨[], []⟩ (initState ["a.blend"] "/bl" "/out")).statusLabel = .invalidOutput)) :=
  ⟨by decide, by decide, c5_validation_rejects _ _ (by decide) (by decide)⟩

/-! ### Lemmas about the worker loop -/

theorem readLoop_some_zero (i : Nat) (total : Int) (lines : List String) (s : AppState) :
    readLoop i total (some 0) lines s = (s, true) := by
  cases lines <;> rfl

theorem readLoop_none_nil (i : Nat) (total : Int) (s : AppState) :
    readLoop i total none [] s = (s, false) := rfl

theorem readLoop_some_succ_nil (i : Nat) (total : Int) (k : Nat) (s : AppState) :
    readLoop i total (some (k + 1)) [] s = (s, true) := rfl

theorem readLoop_none_cons (i : Nat) (total : Int) (line : String) (rest : List String)
    (s : AppState) :
    readLoop i total none (line :: rest) s
      = readLoop i total none rest (readStep i total line s) := rfl

theorem readLoop_some_succ_cons (i : Nat) (total : Int) (k : Nat) (line : String)
    (rest : List String) (s : AppState) :
    readLoop i total (some (k + 1)) (line :: rest) s
      = readLoop i total (some k) rest (readStep i total line s) := rfl

theorem readStep_pres (i : Nat) (total : Int) (line : String) (s : AppState) :
    (readStep i total line s).queue = s.queue ∧
    (readStep i total line s).rendering = s.rendering ∧
    (readStep i total line s).process = s.process ∧
    (readStep i total line s).selection = s.selection ∧
    ∃ d, (readStep i total line s).trace = s.trace ++ d ∧
      ∀ e ∈ d, ∃ v, e = Event.fileProgress i v := by
  unfold readStep
  cases emitProgressS total line with
  | none => exact ⟨rfl, rfl, rfl, rfl, [], by simp, by simp⟩
  | some v => exact ⟨rfl, rfl, rfl, rfl, [.fileProgress i v], rfl, by simp⟩

theorem readLoop_pres (i : Nat) (total : Int) (lines : List String) :
    ∀ (cp : Option Nat) (s : AppState),
      (readLoop i total cp lines s).1.queue = s.queue ∧
      (readLoop i total cp lines s).1.rendering = s.rendering ∧
      (readLoop i total cp lines s).1.process = s.process ∧
      (readLoop i total cp lines s).1.selection = s.selection ∧
      ∃ d, (readLoop i total cp lines s).1.trace = s.trace ++ d ∧
        ∀ e ∈ d, ∃ v, e = Event.fileProgress i v := by
  induction lines with
  | nil =>
    intro cp s
    match cp with
    | none =>
      rw [readLoop_none_nil]
      exact ⟨rfl, rfl, rfl, rfl, [], by simp, by simp⟩
    | some 0 =>
      rw [readLoop_some_zero]
      exact ⟨rfl, rfl, rfl, rfl, [], by simp, by simp⟩
    | some (k + 1) =>
      rw [readLoop_some_succ_nil]
      exact ⟨rfl, rfl, rfl, rfl, [], by simp, by simp⟩
  | cons line rest ih =>
    intro cp s
    match cp with
    | some 0 =>
      rw [readLoop_some_zero]
      exact ⟨rfl, rfl, rfl, rfl, [], by simp, by simp⟩
    | none =>
      rw [readLoop_none_cons]
      obtain ⟨hq, hr, hp, hsel, d, hd, hdp⟩ := ih none (readStep i total line s)
      obtain ⟨hq0, hr0, hp0, hsel0, d0, hd0, hdp0⟩ := readStep_pres i total line s
      refine ⟨by rw [hq, hq0], by rw [hr, hr0], by rw [hp, hp0], by rw [hsel, hsel0],
        d0 ++ d, by rw [hd, hd0, List.append_assoc], ?_⟩
      intro e he
      rcases List.mem_append.mp he with h | h
      · exact hdp0 e h
      · exact hdp e h
    | some (k + 1) =>
      rw [readLoop_some_succ_cons]
      obtain ⟨hq, hr, hp, hsel, d, hd, hdp⟩ := ih (some k) (readStep i total line s)
      obtain ⟨hq0, hr0, hp0, hsel0, d0, hd0, hdp0⟩ := readStep_pres i total line s
      refine ⟨by rw [hq, hq0], by rw [hr, hr0], by rw [hp, hp0], by rw [hsel, hsel0],
        d0 ++ d, by rw [hd, hd0, List.append_assoc], ?_⟩
      intro e he
      rcases List.mem_append.mp he with h | h
      · exact hdp0 e h
      · exact hdp e h

theorem readLoop_none_snd (i : Nat) (total : Int) (lines : List String) :
    ∀ s, (readLoop i total none lines s).2 = false := by
  induction lines with
  | nil => intro s; rfl
  | cons line rest ih =>
    intro s
    rw [readLoop_none_cons]
    exact ih _

theorem readLoop_some_snd (i : Nat) (total : Int) (lines : List String) :
    ∀ k s, (readLoop i total (some k) lines s).2 = true := by
  induction lines with
  | nil =>
    intro k s
    match k with
    | 0 => rfl
    | k + 1 => rfl
  | cons line rest ih =>
    intro k s
    match k with
    | 0 => rw [readLoop_some_zero]
    | k + 1 =>
      rw [readLoop_some_succ_cons]
      exact ih k _

theorem filter_isEta_of_fileProgress (tr d : List Event) (i : Nat)
    (h : ∀ e ∈ d, ∃ v, e = Event.fileProgress i v) :
    (tr ++ d).filter isEta = tr.filter isEta := by
  rw [List.filter_append]
  have hnil : d.filter isEta = [] := by
    rw [List.filter_eq_nil_iff]
    intro e he
    obtain ⟨v, rfl⟩ := h e he
    simp [isEta]
  rw [hnil, List.append_nil]

/-- Unfolding `renderJobs` when `self.rendering` is observed false at the top
of the iteration (line 370): status "Rendering Stopped.", early return. -/
theorem renderJobs_cons_stop (behav : Nat → JobBehavior) (cancel : Nat → Option CancelPoint)
    (procs : Nat → ProcBehavior) (times : Nat → ℚ) (N i : Nat) (file : String)
    (rest : List String) (s : AppState)
    (h : s.rendering = false ∨ cancel i = some .atTop) :
    renderJobs behav cancel procs times N i (file :: rest) s
      = ({ s with statusLabel := .stopped }, false) := by
  rw [renderJobs, if_pos h]

/-- Unfolding `renderJobs` when job `i`'s `try` block raises: error status,
flag cleared, `break` (control falls out of the loop). -/
theorem renderJobs_cons_fail (behav : Nat → JobBehavior) (cancel : Nat → Option CancelPoint)
    (procs : Nat → ProcBehavior) (times : Nat → ℚ) (N i : Nat) (file : String)
    (rest : List String) (s : AppState) (msg : String)
    (hr : s.rendering = true) (hci : ¬ cancel i = some .atTop)
    (hbe : behav i = .fail msg) :
    renderJobs behav cancel procs times N i (file :: rest) s
      = ({ s with
            fileProgressBar := 0
            statusLabel := .errorDuring msg
            rendering := false }, true) := by
  rw [renderJobs, if_neg (by simp [hr, hci]), hbe]

/-- Unfolding `renderJobs` for a normally-completing job `i` (no cancellation
observed during it): probe, spawn, read loop, then the job-boundary
progress/ETA update, and on to the next job. -/
theorem renderJobs_cons_run (behav : Nat → JobBehavior) (cancel : Nat → Option CancelPoint)
    (procs : Nat → ProcBehavior) (times : Nat → ℚ) (N i : Nat) (file : String)
    (rest : List String) (s : AppState) (po : String) (ol : List String)
    (hr : s.rendering = true) (hci : cancel i = none) (hbe : behav i = .run po ol) :
    renderJobs behav cancel procs times N i (file :: rest) s
      = renderJobs behav cancel procs times N (i + 1) rest
          (jobRunState procs times N i file po ol s) := by
  rw [renderJobs, if_neg (by simp [hr, hci]), hbe, hci]
  dsimp only [toReadCancel]
  rw [if_neg (by rw [readLoop_none_snd]; simp)]
  rfl

/-- Unfolding `renderJobs` when the cancel flag is observed inside job `i`'s
read loop: the loop breaks, line 467's check returns. -/
theorem renderJobs_cons_cancelRead (behav : Nat → JobBehavior)
    (cancel : Nat → Option CancelPoint) (procs : Nat → ProcBehavior) (times : Nat → ℚ)
    (N i k : Nat) (file : String) (rest : List String) (s : AppState) (po : String)
    (ol : List String)
    (hr : s.rendering = true) (hci : cancel i = some (.inRead k))
    (hbe : behav i = .run po ol) :
    renderJobs behav cancel procs times N i (file :: rest) s
      = (jobCancelState procs i k file po ol s, false) := by
  rw [renderJobs, if_neg (by simp [hr, hci]), hbe, hci]
  dsimp only [toReadCancel]
  rw [if_pos (by rw [readLoop_some_snd])]
  rfl

theorem jobRunState_fields (procs : Nat → ProcBehavior) (times : Nat → ℚ) (N i : Nat)
    (file : String) (po : String) (ol : List String) (s : AppState) :
    (jobRunState procs times N i file po ol s).rendering = s.rendering ∧
    (jobRunState procs times N i file po ol s).queue = s.queue ∧
    (jobRunState procs times N i file po ol s).selection = s.selection ∧
    (jobRunState procs times N i file po ol s).trace.filter isEta
      = s.trace.filter isEta ++ [etaOf times N i] ∧
    ∃ d, (jobRunState procs times N i file po ol s).trace = s.trace ++ d ∧
      ∀ e ∈ d, eventJob e = i := by
  obtain ⟨hq, hr, hp, hsel, d, hd, hdp⟩ :=
    readLoop_pres i (parseTotalFrames po) ol none (jobStartState procs i file s)
  refine ⟨?_, ?_, ?_, ?_, ?_⟩
  · show (readLoop i (parseTotalFrames po) none ol
        (jobStartState procs i file s)).1.rendering = s.rendering
    rw [hr]
    rfl
  · show (readLoop i (parseTotalFrames po) none ol
        (jobStartState procs i file s)).1.queue = s.queue
    rw [hq]
    rfl
  · show (readLoop i (parseTotalFrames po) none ol
        (jobStartState procs i file s)).1.selection = s.selection
    rw [hsel]
    rfl
  · show ((readLoop i (parseTotalFrames po) none ol
        (jobStartState procs i file s)).1.trace ++ [etaOf times N i]).filter isEta = _
    rw [List.filter_append, hd, filter_isEta_of_fileProgress _ _ i hdp]
    show ((s.trace ++ [Event.probe i file, Event.spawn i file]).filter isEta) ++ _ = _
    rw [List.filter_append]
    simp [isEta, etaOf]
  · refine ⟨[Event.probe i file, Event.spawn i file] ++ d ++ [etaOf times N i], ?_, ?_⟩
    · show (readLoop i (parseTotalFrames po) none ol
          (jobStartState procs i file s)).1.trace ++ [etaOf times N i] = _
      rw [hd]
      show (s.trace ++ [Event.probe i file, Event.spawn i file]) ++ d ++ [etaOf times N i] = _
      simp [List.append_assoc]
    · intro e he
      rcases List.mem_append.mp he with h | h
      · rcases List.mem_append.mp h with h | h
        · simp only [List.mem_cons, List.not_mem_nil, or_false] at h
          rcases h with rfl | rfl <;> rfl
        · obtain ⟨v, rfl⟩ := hdp e h
          rfl
      · simp only [List.mem_singleton] at h
        subst h
        show i + 1 - 1 = i
        omega

theorem jobCancelState_fields (procs : Nat → ProcBehavior) (i k : Nat) (file : String)
    (po : String) (ol : List String) (s : AppState) :
    (jobCancelState procs i k file po ol s).rendering = s.rendering ∧
    (jobCancelState procs i k file po ol s).queue = s.queue ∧
    (jobCancelState procs i k file po ol s).selection = s.selection ∧
    (jobCancelState procs i k file po ol s).process = some (procs i) ∧
    ∃ d, (jobCancelState procs i k file po ol s).trace = s.trace ++ d ∧
      ∀ e ∈ d, eventJob e = i := by
  obtain ⟨hq, hr, hp, hsel, d, hd, hdp⟩ :=
    readLoop_pres i (parseTotalFrames po) ol (some k) (jobStartState procs i file s)
  refine ⟨by rw [jobCancelState, hr]; rfl, by rw [jobCancelState, hq]; rfl,
    by rw [jobCancelState, hsel]; rfl, by rw [jobCancelState, hp]; rfl,
    [Event.probe i file, Event.spawn i file] ++ d, ?_, ?_⟩
  · show (readLoop i (parseTotalFrames po) (some k) ol
        (jobStartState procs i file s)).1.trace = _
    rw [hd]
    show (s.trace ++ [Event.probe i file, Event.spawn i file]) ++ d = _
    rw [List.append_assoc]
  · intro e he
    rcases List.mem_append.mp he with h | h
    · simp only [List.mem_cons, List.not_mem_nil, or_false] at h
      rcases h with rfl | rfl <;> rfl
    · obtain ⟨v, rfl⟩ := hdp e h
      rfl

/-- The loop invariant for an all-normal stretch of jobs starting at index
`i`: control falls out of the loop, the flag stays set, the queue and
selection are untouched, and exactly one ETA report per job is appended, the
one computed by `etaOf`. -/
theorem renderJobs_run (behav : Nat → JobBehavior) (cancel : Nat → Option CancelPoint)
    (procs : Nat → ProcBehavior) (times : Nat → ℚ) (N : Nat) (rest : List String) :
    ∀ (i : Nat) (s : AppState),
      s.rendering = true →
      (∀ j, j < rest.length → (behav (i + j)).isRun) →
      (∀ j, j < rest.length → cancel (i + j) = none) →
      (renderJobs behav cancel procs times N i rest s).2 = true ∧
      (renderJobs behav cancel procs times N i rest s).1.rendering = true ∧
      (renderJobs behav cancel procs times N i rest s).1.queue = s.queue ∧
      (renderJobs behav cancel procs times N i rest s).1.selection = s.selection ∧
      (renderJobs behav cancel procs times N i rest s).1.trace.filter isEta
        = s.trace.filter isEta
          ++ (List.range rest.length).map (fun k => etaOf times N (i + k)) := by
  induction rest with
  | nil =>
    intro i s hr _ _
    exact ⟨rfl, hr, rfl, rfl, by simp [renderJobs]⟩
  | cons file rest ih =>
    intro i s hr hb hc
    have hci : cancel i = none := by simpa using hc 0 (by simp)
    have hbi : (behav i).isRun := by simpa using hb 0 (by simp)
    obtain ⟨po, ol, hbe⟩ : ∃ po ol, behav i = .run po ol := by
      cases hbeq : behav i with
      | fail m => rw [hbeq] at hbi; exact hbi.elim
      | run p l => exact ⟨p, l, rfl⟩
    rw [renderJobs_cons_run behav cancel procs times N i file rest s po ol hr hci hbe]
    obtain ⟨hR, hQ, hSel, hTr, -⟩ := jobRunState_fields procs times N i file po ol s
    have hb' : ∀ j, j < rest.length → (behav (i + 1 + j)).isRun := by
      intro j hj
      have := hb (j + 1) (by simp; omega)
      rwa [show i + (j + 1) = i + 1 + j by omega] at this
    have hc' : ∀ j, j < rest.length → cancel (i + 1 + j) = none := by
      intro j hj
      have := hc (j + 1) (by simp; omega)
      rwa [show i + (j + 1) = i + 1 + j by omega] at this
    obtain ⟨ih2, ihr, ihq, ihsel, ihtr⟩ :=
      ih (i + 1) (jobRunState procs times N i file po ol s) (by rw [hR]; exact hr) hb' hc'
    refine ⟨ih2, ihr, by rw [ihq, hQ], by rw [ihsel, hSel], ?_⟩
    rw [ihtr, hTr, List.append_assoc]
    congr 1
    simp only [List.length_cons]
    rw [List.range_succ_eq_map, List.map_cons, List.map_map, List.singleton_append]
    congr 1
    refine List.map_congr_left (fun k hk => ?_)
    show etaOf times N (i + 1 + k) = etaOf times N (i + (k + 1))
    congr 1
    omega

theorem postLoop_trace (r : AppState × Bool) : (postLoop r).trace = r.1.trace := by
  rcases r with ⟨a, b⟩
  cases b
  · rfl
  · by_cases h : a.rendering = true <;> simp [postLoop, h]

/-- The post-loop block after the exception-handler `break` (flag already
cleared): only the flag/stop-button/thread fields are touched. -/
theorem postLoop_noflag (a : AppState) (h : a.rendering = false) :
    postLoop (a, true)
      = { a with rendering := false, stopEnabled := false, threadRunning := false } := by
  simp [postLoop, h]

/-- The loop invariant leading up to a failing job `i`: all jobs before `i`
run normally, job `i` raises, the loop breaks with the flag cleared and the
error recorded, and no event of any job past `i - 1` is ever emitted. -/
theorem renderJobs_fail (behav : Nat → JobBehavior) (cancel : Nat → Option CancelPoint)
    (procs : Nat → ProcBehavior) (times : Nat → ℚ) (N i : Nat) (msg : String)
    (hbi : behav i = .fail msg) (hci : cancel i = none) :
    ∀ (rest : List String) (j : Nat) (s : AppState),
      s.rendering = true → j ≤ i → i < j + rest.length →
      (∀ m, j ≤ m → m < i → (behav m).isRun ∧ cancel m = none) →
      (renderJobs behav cancel procs times N j rest s).2 = true ∧
      (renderJobs behav cancel procs times N j rest s).1.rendering = false ∧
      (renderJobs behav cancel procs times N j rest s).1.statusLabel = .errorDuring msg ∧
      (renderJobs behav cancel procs times N j rest s).1.queue = s.queue ∧
      ∃ d, (renderJobs behav cancel procs times N j rest s).1.trace = s.trace ++ d ∧
        ∀ e ∈ d, eventJob e < i := by
  intro rest
  induction rest with
  | nil =>
    intro j s _ hji hlt _
    exact absurd hlt (by simp; omega)
  | cons file rest ih =>
    intro j s hr hji hlt hm
    rcases eq_or_lt_of_le hji with rfl | hjlt
    · rw [renderJobs_cons_fail behav cancel procs times N j file rest s msg hr
        (by rw [hci]; simp) hbi]
      exact ⟨rfl, rfl, rfl, rfl, [], by simp, by simp⟩
    · obtain ⟨hbr, hcj⟩ := hm j (le_refl j) hjlt
      obtain ⟨po, ol, hbe⟩ : ∃ po ol, behav j = .run po ol := by
        cases hbeq : behav j with
        | fail m => rw [hbeq] at hbr; exact hbr.elim
        | run p l => exact ⟨p, l, rfl⟩
      rw [renderJobs_cons_run behav cancel procs times N j file rest s po ol hr hcj hbe]
      obtain ⟨hR, hQ, hSel, -, d0, hd0, hd0p⟩ := jobRunState_fields procs times N j file po ol s
      obtain ⟨ih2, ihr, ihst, ihq, d1, ihtr, ihtrp⟩ :=
        ih (j + 1) (jobRunState procs times N j file po ol s) (by rw [hR]; exact hr)
          (by omega) (by simp at hlt ⊢; omega)
          (fun m hm1 hm2 => hm m (by omega) hm2)
      refine ⟨ih2, ihr, ihst, by rw [ihq, hQ], d0 ++ d1, ?_, ?_⟩
      · rw [ihtr, hd0, List.append_assoc]
      · intro e he
        rcases List.mem_append.mp he with h | h
        · rw [hd0p e h]
          omega
        · exact ihtrp e h

/-- The loop invariant when the cancel flag is observed inside job `i`'s read
loop: all jobs before `i` complete normally, job `i` probes, spawns and its
read loop breaks; the function returns early with the queue, selection and
flag untouched, job `i`'s process handle held, and no event of any job past
`i` emitted. -/
theorem renderJobs_cancel (behav : Nat → JobBehavior) (cancel : Nat → Option CancelPoint)
    (procs : Nat → ProcBehavior) (times : Nat → ℚ) (N i k : Nat) (po : String)
    (ol : List String)
    (hbi : behav i = .run po ol) (hci : cancel i = some (.inRead k)) :
    ∀ (rest : List String) (j : Nat) (s : AppState),
      s.rendering = true → j ≤ i → i < j + rest.length →
      (∀ m, j ≤ m → m < i → (behav m).isRun ∧ cancel m = none) →
      (renderJobs behav cancel procs times N j rest s).2 = false ∧
      (renderJobs behav cancel procs times N j rest s).1.rendering = true ∧
      (renderJobs behav cancel procs times N j rest s).1.queue = s.queue ∧
      (renderJobs behav cancel procs times N j rest s).1.selection = s.selection ∧
      (renderJobs behav cancel procs times N j rest s).1.process = some (procs i) ∧
      ∃ d, (renderJobs behav cancel procs times N j rest s).1.trace = s.trace ++ d ∧
        ∀ e ∈ d, eventJob e ≤ i := by
  intro rest
  induction rest with
  | nil =>
    intro j s _ hji hlt _
    exact absurd hlt (by simp; omega)
  | cons file rest ih =>
    intro j s hr hji hlt hm
    rcases eq_or_lt_of_le hji with rfl | hjlt
    · rw [renderJobs_cons_cancelRead behav cancel procs times N j k file rest s po ol hr
        hci hbi]
      obtain ⟨hR, hQ, hSel, hP, d, hd, hdp⟩ := jobCancelState_fields procs j k file po ol s
      exact ⟨rfl, by rw [hR]; exact hr, hQ, hSel, hP, d, hd,
        fun e he => le_of_eq (hdp e he)⟩
    · obtain ⟨hbr, hcj⟩ := hm j (le_refl j) hjlt
      obtain ⟨po2, ol2, hbe2⟩ : ∃ po2 ol2, behav j = .run po2 ol2 := by
        cases hbeq : behav j with
        | fail m => rw [hbeq] at hbr; exact hbr.elim
        | run p l => exact ⟨p, l, rfl⟩
      rw [renderJobs_cons_run behav cancel procs times N j file rest s po2 ol2 hr hcj hbe2]
      obtain ⟨hR, hQ, hSel, -, d0, hd0, hd0p⟩ :=
        jobRunState_fields procs times N j file po2 ol2 s
      obtain ⟨ih2, ihr, ihq, ihsel, ihp, d1, ihtr, ihtrp⟩ :=
        ih (j + 1) (jobRunState procs times N j file po2 ol2 s) (by rw [hR]; exact hr)
          (by omega) (by simp at hlt ⊢; omega)
          (fun m hm1 hm2 => hm m (by omega) hm2)
      refine ⟨ih2, ihr, by rw [ihq, hQ], by rw [ihsel, hSel], ihp, d0 ++ d1, ?_, ?_⟩
      · rw [ihtr, hd0, List.append_assoc]
      · intro e he
        rcases List.mem_append.mp he with h | h
        · rw [hd0p e h]
          omega
        · exact ihtrp e h

theorem killSequence_some (s : AppState) (pb : ProcBehavior) (hp : s.process = some pb) :
    killSequence s
      = (if pb.stopRaises then ({ s with process := none }, [StopAction.signalGroup])
        else if pb.exitsWithinTimeout then
          ({ s with process := none }, [StopAction.signalGroup, StopAction.waitProcess])
        else ({ s with process := none },
          [StopAction.signalGroup, StopAction.waitProcess, StopAction.forceKill])) := by
  unfold killSequence
  rw [hp]

/-- The observable outcome of `stopRendering` when a process handle is held:
flag cleared, queue untouched, handle released, "Rendering Stopped."
published, both bars reset, and the escalation actions determined by the
process's behaviour. -/
theorem stopRendering_of_process (s : AppState) (pb : ProcBehavior)
    (hp : s.process = some pb) :
    (stopRendering s).1.rendering = false ∧
    (stopRendering s).1.queue = s.queue ∧
    (stopRendering s).1.process = none ∧
    (stopRendering s).1.statusLabel = .stopped ∧
    (stopRendering s).2
      = (if pb.stopRaises then [StopAction.signalGroup]
        else if pb.exitsWithinTimeout then [StopAction.signalGroup, StopAction.waitProcess]
        else [StopAction.signalGroup, StopAction.waitProcess, StopAction.forceKill]) := by
  unfold stopRendering
  rw [killSequence_some _ pb
    (show ({ s with rendering := false } : AppState).process = some pb from hp)]
  by_cases h1 : pb.stopRaises = true
  · simp [h1]
  · by_cases h2 : pb.exitsWithinTimeout = true <;> simp [h1, h2]

/-- C3 (amended): a job failure is recorded (error detail in the status
label) but it halts the whole queue: the handler clears `self.rendering` and
breaks, so the jobs after the failing one are never probed, spawned or run
— the engine does not proceed to the next Queued job.  The job list itself
is untouched. -/
theorem c3_failure_halts_queue (behav : Nat → JobBehavior) (procs : Nat → ProcBehavior)
    (times : Nat → ℚ) (s : AppState) (i : Nat) (msg : String)
    (hr : s.rendering = true) (ht : s.trace = []) (hi : i < s.queue.length)
    (hbefore : ∀ m, m < i → (behav m).isRun)
    (hbi : behav i = .fail msg) :
    (render_files behav (fun _ => none) procs times s).statusLabel = .errorDuring msg ∧
    (render_files behav (fun _ => none) procs times s).rendering = false ∧
    (render_files behav (fun _ => none) procs times s).threadRunning = false ∧
    (render_files behav (fun _ => none) procs times s).queue = s.queue ∧
    ∀ e ∈ (render_files behav (fun _ => none) procs times s).trace, eventJob e < i := by
  obtain ⟨h2, hrend, hst, hq, d, htr, htrp⟩ :=
    renderJobs_fail behav (fun _ => none) procs times s.queue.length i msg hbi rfl
      s.queue 0 s hr (Nat.zero_le i) (by omega)
      (fun m _ hm2 => ⟨hbefore m hm2, rfl⟩)
  unfold render_files
  rw [show (renderJobs behav (fun _ => none) procs times s.queue.length 0 s.queue s)
      = ((renderJobs behav (fun _ => none) procs times s.queue.length 0 s.queue s).1,
        true) from Prod.ext rfl h2]
  rw [postLoop_noflag _ hrend]
  refine ⟨hst, rfl, rfl, hq, ?_⟩
  intro e he
  have he' : e ∈ (renderJobs behav (fun _ => none) procs times s.queue.length
      0 s.queue s).1.trace := he
  rw [htr, ht] at he'
  exact htrp e (by simpa using he')

/-- C3, counterexample: with job 0 failing in a two-job queue, the engine
does not proceed to job 1 — no probe or spawn of job 1 ever happens, the
flag is cleared and the loop broken instead. -/
theorem c3_no_advance_counterexample :
    (render_files exFailBehav (fun _ => none) exProcs (fun _ => 0)
        (startQueue exFS exState)).statusLabel = .errorDuring "boom" ∧
    (render_files exFailBehav (fun _ => none) exProcs (fun _ => 0)
        (startQueue exFS exState)).rendering = false ∧
    (render_files exFailBehav (fun _ => none) exProcs (fun _ => 0)
        (startQueue exFS exState)).trace = [] ∧
    Event.spawn 1 "b.blend" ∉ (render_files exFailBehav (fun _ => none) exProcs (fun _ => 0)
        (startQueue exFS exState)).trace := by
  decide

/-- C3, witness for the amended theorem at the same concrete scenario. -/
theorem c3_failure_halts_queue_witness :
    ((startQueue exFS exState).rendering = true ∧ (startQueue exFS exState).trace = [] ∧
      0 < (startQueue exFS exState).queue.length ∧ exFailBehav 0 = .fail "boom") ∧
    ((render_files exFailBehav (fun _ => none) exProcs (fun _ => 0)
        (startQueue exFS exState)).statusLabel = .errorDuring "boom" ∧
      (render_files exFailBehav (fun _ => none) exProcs (fun _ => 0)
        (startQueue exFS exState)).rendering = false ∧
      (render_files exFailBehav (fun _ => none) exProcs (fun _ => 0)
        (startQueue exFS exState)).threadRunning = false ∧
      (render_files exFailBehav (fun _ => none) exProcs (fun _ => 0)
        (startQueue exFS exState)).queue = (startQueue exFS exState).queue ∧
      ∀ e ∈ (render_files exFailBehav (fun _ => none) exProcs (fun _ => 0)
        (startQueue exFS exState)).trace, eventJob e < 0) :=
  ⟨⟨by decide, by decide, by decide, by decide⟩,
    c3_failure_halts_queue exFailBehav exProcs (fun _ => 0) (startQueue exFS exState) 0 "boom"
      (by decide) (by decide) (by decide)
      (fun m hm => absurd hm (Nat.not_lt_zero m)) (by decide)⟩

/-- C6: cancellation observed while job `i` is in flight affects only that
job: the worker returns early, the queue list is untouched, no job after `i`
is ever probed or spawned, and `stopRendering` then publishes
"Rendering Stopped.", releases job `i`'s process handle after signalling its
group, waiting out the bounded 2-second window, and force-killing exactly
when the process did not exit within it. -/
theorem c6_cancel_only_in_flight (behav : Nat → JobBehavior) (procs : Nat → ProcBehavior)
    (times : Nat → ℚ) (s : AppState) (i k : Nat) (po : String) (ol : List String)
    (hr : s.rendering = true) (ht : s.trace = []) (hi : i < s.queue.length)
    (hbefore : ∀ m, m < i → (behav m).isRun)
    (hbi : behav i = .run po ol) :
    (render_files behav (fun j => if j = i then some (.inRead k) else none) procs
        times s).queue = s.queue ∧
    (∀ e ∈ (render_files behav (fun j => if j = i then some (.inRead k) else none) procs
        times s).trace, eventJob e ≤ i) ∧
    (render_files behav (fun j => if j = i then some (.inRead k) else none) procs
        times s).process = some (procs i) ∧
    (stopRendering (render_files behav (fun j => if j = i then some (.inRead k) else none)
        procs times s)).1.statusLabel = .stopped ∧
    (stopRendering (render_files behav (fun j => if j = i then some (.inRead k) else none)
        procs times s)).1.rendering = false ∧
    (stopRendering (render_files behav (fun j => if j = i then some (.inRead k) else none)
        procs times s)).1.queue = s.queue ∧
    (stopRendering (render_files behav (fun j => if j = i then some (.inRead k) else none)
        procs times s)).1.process = none ∧
    ((procs i).stopRaises = false →
      (stopRendering (render_files behav (fun j => if j = i then some (.inRead k) else none)
          procs times s)).2
        = (if (procs i).exitsWithinTimeout then
            [StopAction.signalGroup, StopAction.waitProcess]
          else [StopAction.signalGroup, StopAction.waitProcess, StopAction.forceKill])) := by
  obtain ⟨h2, hrend, hq, hsel, hp, d, htr, htrp⟩ :=
    renderJobs_cancel behav (fun j => if j = i then some (.inRead k) else none) procs times
      s.queue.length i k po ol hbi (by simp)
      s.queue 0 s hr (Nat.zero_le i) (by omega)
      (fun m _ hm2 => ⟨hbefore m hm2, by simp [Nat.ne_of_lt hm2]⟩)
  have hwfull : render_files behav (fun j => if j = i then some (.inRead k) else none)
      procs times s
      = (renderJobs behav (fun j => if j = i then some (.inRead k) else none) procs times
          s.queue.length 0 s.queue s).1 := by
    unfold render_files
    rw [show (renderJobs behav (fun j => if j = i then some (.inRead k) else none) procs
        times s.queue.length 0 s.queue s)
        = ((renderJobs behav (fun j => if j = i then some (.inRead k) else none) procs
          times s.queue.length 0 s.queue s).1, false) from Prod.ext rfl h2]
    rfl
  obtain ⟨hsr, hsq, hsp, hss, hsa⟩ :=
    stopRendering_of_process
      (render_files behav (fun j => if j = i then some (.inRead k) else none) procs times s)
      (procs i) (by rw [hwfull]; exact hp)
  refine ⟨?_, ?_, ?_, hss, hsr, ?_, hsp, ?_⟩
  · rw [hwfull]
    exact hq
  · intro e he
    rw [hwfull, htr, ht] at he
    exact htrp e (by simpa using he)
  · rw [hwfull]
    exact hp
  · rw [hsq, hwfull]
    exact hq
  · intro hraise
    rw [hsa, if_neg (by simp [hraise])]

/-- C6, witness: cancelling during job 0 of the two-job example queue. -/
theorem c6_cancel_only_in_flight_witness :
    ((startQueue exFS exState).rendering = true ∧ (startQueue exFS exState).trace = [] ∧
      0 < (startQueue exFS exState).queue.length ∧
      exBehav 0 = .run "FRAME_RANGE:1,5" ["Fra:1 Mem:27.54M", "Fra:5 Mem:27.54M"]) ∧
    ((render_files exBehav (fun j => if j = 0 then some (.inRead 1) else none) exProcs
        (fun _ => 0) (startQueue exFS exState)).queue = (startQueue exFS exState).queue ∧
      (∀ e ∈ (render_files exBehav (fun j => if j = 0 then some (.inRead 1) else none)
        exProcs (fun _ => 0) (startQueue exFS exState)).trace, eventJob e ≤ 0) ∧
      (render_files exBehav (fun j => if j = 0 then some (.inRead 1) else none) exProcs
        (fun _ => 0) (startQueue exFS exState)).process = some (exProcs 0) ∧
      (stopRendering (render_files exBehav (fun j => if j = 0 then some (.inRead 1) else none)
        exProcs (fun _ => 0) (startQueue exFS exState))).1.statusLabel = .stopped ∧
      (stopRendering (render_files exBehav (fun j => if j = 0 then some (.inRead 1) else none)
        exProcs (fun _ => 0) (startQueue exFS exState))).1.rendering = false ∧
      (stopRendering (render_files exBehav (fun j => if j = 0 then some (.inRead 1) else none)
        exProcs (fun _ => 0) (startQueue exFS exState))).1.queue
          = (startQueue exFS exState).queue ∧
      (stopRendering (render_files exBehav (fun j => if j = 0 then some (.inRead 1) else none)
        exProcs (fun _ => 0) (startQueue exFS exState))).1.process = none ∧
      ((exProcs 0).stopRaises = false →
        (stopRendering (render_files exBehav
            (fun j => if j = 0 then some (.inRead 1) else none)
            exProcs (fun _ => 0) (startQueue exFS exState))).2
          = (if (exProcs 0).exitsWithinTimeout then
              [StopAction.signalGroup, StopAction.waitProcess]
            else [StopAction.signalGroup, StopAction.waitProcess, StopAction.forceKill]))) :=
  ⟨⟨by decide, by decide, by decide, by decide⟩,
    c6_cancel_only_in_flight exBehav exProcs (fun _ => 0) (startQueue exFS exState) 0 1
      "FRAME_RANGE:1,5" ["Fra:1 Mem:27.54M", "Fra:5 Mem:27.54M"]
      (by decide) (by decide) (by decide)
      (fun m hm => absurd hm (Nat.not_lt_zero m)) (by decide)⟩

/-- C8: in a full normal run of `N` jobs with no cancellation, exactly one
ETA/status report is published per job, in order, and the one after job `i`
(zero-based) carries `remaining = (elapsed at job i) / (i+1) * (N - (i+1))`
— the average time per completed job so far times the number still pending. -/
theorem c8_eta_after_each_job (probeOuts : Nat → String) (outLiness : Nat → List String)
    (procs : Nat → ProcBehavior) (times : Nat → ℚ) (s : AppState)
    (hr : s.rendering = true) (ht : s.trace = []) :
    (render_files (fun j => .run (probeOuts j) (outLiness j)) (fun _ => none)
        procs times s).trace.filter isEta
      = (List.range s.queue.length).map (fun i =>
          Event.etaReport (i + 1) s.queue.length
            (times i / ((i : ℚ) + 1) * ((s.queue.length : ℚ) - ((i : ℚ) + 1)))) := by
  obtain ⟨h2, hrend, hq, hsel, htr⟩ :=
    renderJobs_run (fun j => .run (probeOuts j) (outLiness j)) (fun _ => none) procs times
      s.queue.length s.queue 0 s hr (fun _ _ => trivial) (fun _ _ => rfl)
  unfold render_files
  rw [postLoop_trace]
  rw [htr, ht]
  simp only [List.filter_nil, List.nil_append]
  refine List.map_congr_left (fun k hk => ?_)
  show etaOf times s.queue.length (0 + k) = _
  rw [show 0 + k = k from by omega]
  rfl

/-- C8, witness: a concrete two-job run with elapsed times 4 s and 10 s. -/
theorem c8_eta_after_each_job_witness :
    ((startQueue exFS exState).rendering = true ∧ (startQueue exFS exState).trace = []) ∧
    (render_files (fun _ => .run "FRAME_RANGE:1,5" ["Fra:1 Mem:27.54M"]) (fun _ => none)
        exProcs (fun i => if i = 0 then (4 : ℚ) else 10)
        (startQueue exFS exState)).trace.filter isEta
      = (List.range (startQueue exFS exState).queue.length).map (fun i =>
          Event.etaReport (i + 1) (startQueue exFS exState).queue.length
            ((if i = 0 then (4 : ℚ) else 10) / ((i : ℚ) + 1)
              * (((startQueue exFS exState).queue.length : ℚ) - ((i : ℚ) + 1)))) :=
  ⟨⟨by decide, by decide⟩,
    c8_eta_after_each_job (fun _ => "FRAME_RANGE:1,5") (fun _ => ["Fra:1 Mem:27.54M"])
      exProcs (fun i => if i = 0 then (4 : ℚ) else 10) (startQueue exFS exState)
      (by decide) (by decide)⟩

/-- C9: `stopRendering` unconditionally resets both published progress values
to 0, on every control path (no process held, graceful exit, forced kill, or
an exception while stopping). -/
theorem c9_stop_resets_progress (s : AppState) :
    (stopRendering s).1.progressBar = 0 ∧ (stopRendering s).1.fileProgressBar = 0 :=
  ⟨rfl, rfl⟩

end RenderQueue


